import Mathlib

/-
Verification development for the content-management data layer
(models/base.js, models/content.js, models/user.js, models/settings.js,
models/schemas/Content.js, models/schemas/Settings.js, models/schemas/User).

The JavaScript source is shallowly embedded: documents are Lean structures,
collections are lists of documents, JS `Date` values are Nat millisecond
timestamps, JS `null`/`undefined`/absent fields are `Option`, and fallible
operations return `Except String`.  Mongoose-level machinery is modelled only
where the verified properties depend on it (schema validators on the fields
involved, the `pre('save')` hooks, `$setOnInsert` upserts); unrelated schema
fields (author, metrics, SEO metadata, …) are omitted from the document
structures since no property here mentions them.

Regular-expression testing (`new RegExp(pattern).test(value)` in the settings
validator) is kept abstract as a function parameter `regexTest`; every theorem
about it is quantified over that parameter.
-/

namespace CMS

/-! ### Generic list helpers (model of `findOneAndUpdate`: update the first
matching document, fail when none matches) -/

def updateFirst {α : Type} (p : α → Bool) (f : α → α) : List α → Option (List α)
  | [] => none
  | d :: ds =>
    if p d then some (f d :: ds)
    else (updateFirst p f ds).map (d :: ·)

theorem length_dropWhile_le {α : Type} (p : α → Bool) (l : List α) :
    (l.dropWhile p).length ≤ l.length := by
  induction l with
  | nil => simp [List.dropWhile]
  | cons a t ih =>
    rw [List.dropWhile_cons]
    split
    · exact Nat.le_succ_of_le ih
    · exact Nat.le_refl _

theorem head?_dropWhile_false {α : Type} (p : α → Bool) (l : List α) (c : α)
    (h : (l.dropWhile p).head? = some c) : p c = false := by
  induction l with
  | nil => simp [List.dropWhile] at h
  | cons a t ih =>
    rw [List.dropWhile_cons] at h
    split at h
    · exact ih h
    · simp at h
      subst h
      rename_i hh
      simpa using hh

/-! ### Slug generation (ContentModel.generateSlug, models/content.js:251-259)

The JS pipeline is
  title.toLowerCase().trim()
       .replace(/[^a-z0-9\s-]/g, '')
       .replace(/\s+/g, '-')
       .replace(dash-plus regex, '-')
       .replace(/^-|-$/g, '')
Strings are handled as their character lists.  The two run-replacements are
written with an explicit fuel argument (initialised to the list length, which
always suffices: every step consumes at least one input character) so that the
functions are structurally recursive and evaluate by `rfl`. -/

/-- Character class of the JS regex `\s` (whitespace). -/
def isJsWhitespace (c : Char) : Bool :=
  c = ' ' || c = '\t' || c = '\n' || c = '\r' ||
  c = '\x0b' || c = '\x0c' ||
  c = '\u00A0' || c = '\u1680' ||
  ('\u2000' ≤ c && c ≤ '\u200A') ||
  c = '\u2028' || c = '\u2029' || c = '\u202F' || c = '\u205F' ||
  c = '\u3000' || c = '\uFEFF'

/-- Characters kept by `.replace(/[^a-z0-9\s-]/g, '')`. -/
def slugKeepChar (c : Char) : Bool :=
  ('a' ≤ c && c ≤ 'z') || ('0' ≤ c && c ≤ '9') || isJsWhitespace c || c = '-'

/-- Character class of the schema slug pattern `[a-z0-9-]`. -/
def isSlugChar (c : Char) : Bool :=
  ('a' ≤ c && c ≤ 'z') || ('0' ≤ c && c ≤ '9') || c = '-'

/-- Model of `String.prototype.toLowerCase` (character-wise lowering). -/
def lowerStr (s : String) : String :=
  String.mk (s.data.map Char.toLower)

/-- Model of `String.prototype.trim`: strip leading and trailing whitespace. -/
def jsTrim (l : List Char) : List Char :=
  ((l.dropWhile isJsWhitespace).reverse.dropWhile isJsWhitespace).reverse

/-- Fuel-indexed body of `.replace(/\s+/g, '-')`: each maximal whitespace run
becomes a single hyphen. -/
def replaceWsRunsGo : Nat → List Char → List Char
  | 0, _ => []
  | _ + 1, [] => []
  | fuel + 1, c :: cs =>
    if isJsWhitespace c then '-' :: replaceWsRunsGo fuel (cs.dropWhile isJsWhitespace)
    else c :: replaceWsRunsGo fuel cs

def replaceWsRuns (l : List Char) : List Char :=
  replaceWsRunsGo l.length l

/-- Fuel-indexed body of the hyphen-run replacement (regex: one or more
hyphens, global): each maximal hyphen run becomes a single hyphen. -/
def collapseHyphenRunsGo : Nat → List Char → List Char
  | 0, _ => []
  | _ + 1, [] => []
  | fuel + 1, c :: cs =>
    if c = '-' then '-' :: collapseHyphenRunsGo fuel (cs.dropWhile (· = '-'))
    else c :: collapseHyphenRunsGo fuel cs

def collapseHyphenRuns (l : List Char) : List Char :=
  collapseHyphenRunsGo l.length l

/-- Removal of one leading hyphen; `.replace(/^-|-$/g, '')` removes at most one
hyphen at each end, so it is this applied at the front and (via `reverse`) at
the back. -/
def stripLeadHyphen : List Char → List Char
  | '-' :: t => t
  | l => l

def stripEdgeHyphens (l : List Char) : List Char :=
  (stripLeadHyphen ((stripLeadHyphen l).reverse)).reverse

/-- ContentModel.generateSlug (models/content.js:251-259). -/
def generateSlug (title : String) : String :=
  String.mk
    (stripEdgeHyphens
      (collapseHyphenRuns
        (replaceWsRuns
          ((jsTrim (lowerStr title).data).filter slugKeepChar))))

/-! ### Content documents and slug uniqueness -/

structure ContentTimestamps where
  created_at : Option Nat := none
  updated_at : Option Nat := none
  published_at : Option Nat := none
deriving DecidableEq

/-- Content document (models/schemas/Content.js), restricted to the fields the
verified properties mention; `author`, `metrics`, SEO metadata, … are omitted. -/
structure ContentDoc where
  ID : String
  type : String
  title : String
  slug : String
  status : String
  visibility : String
  content : Option String := none
  timestamps : ContentTimestamps := {}
deriving DecidableEq

/-- Input object accepted by ContentModel.insert; `none` models an absent key. -/
structure ContentData where
  type : Option String := none
  title : Option String := none
  slug : Option String := none
  status : Option String := none
  visibility : Option String := none
  content : Option String := none
deriving DecidableEq

/-- JS falsiness of an optional string (`undefined` or `''`). -/
def jsFalsyStr : Option String → Bool
  | none => true
  | some s => s == ""

/-- The `findOne` probe inside ensureUniqueSlug: is some document (other than
the excluded one) using this slug? -/
def slugTaken (docs : List ContentDoc) (excludeID : Option String) (slug : String) : Bool :=
  docs.any fun d =>
    d.slug == slug &&
      (match excludeID with
       | none => true
       | some e => d.ID != e)

/-- The `while (true)` loop of ensureUniqueSlug (models/content.js:261-283),
carrying the current probe `slug` and the JS `counter` variable.  The fuel is
an upper bound on iterations; `ensureUniqueSlug` passes `docs.length + 1`,
which always suffices (theorem `C10`). -/
def ensureUniqueSlugLoop (taken : String → Bool) (baseSlug : String) :
    Nat → String → Nat → Option String
  | 0, _, _ => none
  | fuel + 1, slug, counter =>
    if taken slug then
      ensureUniqueSlugLoop taken baseSlug fuel (baseSlug ++ "-" ++ toString counter) (counter + 1)
    else
      some slug

/-- ContentModel.ensureUniqueSlug (models/content.js:261-283). -/
def ensureUniqueSlug (docs : List ContentDoc) (baseSlug : String)
    (excludeID : Option String) : Option String :=
  ensureUniqueSlugLoop (slugTaken docs excludeID) baseSlug (docs.length + 1) baseSlug 1

/-- The probe sequence of ensureUniqueSlug: `base`, `base-1`, `base-2`, … -/
def slugProbe (baseSlug : String) : Nat → String
  | 0 => baseSlug
  | n + 1 => baseSlug ++ "-" ++ toString (n + 1)

/-! ### Content schema validation, save hook and insert -/

/-- Schema validators of ContentSchema on the modelled fields: `type` enum,
`title` required with length 1..200, `slug` required matching `^[a-z0-9-]+$`,
`status` enum, `content` required when status is published. -/
def contentSchemaValid (d : ContentDoc) : Bool :=
  ["page", "blog", "service", "product", "custom"].contains d.type &&
  decide (1 ≤ d.title.length) && decide (d.title.length ≤ 200) &&
  d.slug != "" && d.slug.data.all isSlugChar &&
  ["draft", "published", "archived", "scheduled"].contains d.status &&
  (!(d.status == "published") || d.content.isSome)

/-- ContentSchema.pre('save') (models/schemas/Content.js:180-191): stamp
created_at on new documents, always stamp updated_at, and stamp published_at
when the document is published and published_at is unset. -/
def contentPreSave (now : Nat) (isNew : Bool) (d : ContentDoc) : ContentDoc :=
  let d1 := if isNew then { d with timestamps.created_at := some now } else d
  let d2 := { d1 with timestamps.updated_at := some now }
  if d2.status == "published" && d2.timestamps.published_at == none then
    { d2 with timestamps.published_at := some now }
  else
    d2

/-- Mongoose `document.save()` for a new content document: the `lowercase`
setter on `slug`, the pre-save hook, the schema validators, and the unique
indexes on `ID` and `slug`. -/
def contentSave (docs : List ContentDoc) (now : Nat) (d : ContentDoc) :
    Except String ContentDoc :=
  let d1 := { d with slug := lowerStr d.slug }
  let d2 := contentPreSave now true d1
  if contentSchemaValid d2 then
    if docs.any (fun e => e.slug == d2.slug || e.ID == d2.ID) then
      Except.error "Insert failed: duplicate key"
    else
      Except.ok d2
  else
    Except.error "Insert failed: Content validation failed"

/-- ContentModel.insert (models/content.js:10-37): defaults, title check, slug
derivation, slug-uniqueness resolution, then the base-class insert (save). -/
def contentInsert (docs : List ContentDoc) (data : ContentData)
    (newID : String) (now : Nat) : Except String ContentDoc :=
  let ty := data.type.getD "page"
  let status := data.status.getD "draft"
  let visibility := data.visibility.getD "public"
  if jsFalsyStr data.title then
    Except.error "Content creation failed: Title is required"
  else
    let title := data.title.getD ""
    let slug0 := if jsFalsyStr data.slug then generateSlug title else data.slug.getD ""
    match ensureUniqueSlug docs slug0 none with
    | none => Except.error "Content creation failed: slug probe fuel exhausted"
    | some slug =>
      contentSave docs now
        { ID := newID, type := ty, title := title, slug := slug,
          status := status, visibility := visibility, content := data.content }

/-- The `$set` payload of ContentModel.publishContent (models/content.js:171-181):
status to published and timestamps.published_at to now, unconditionally. -/
def setPublished (now : Nat) (d : ContentDoc) : ContentDoc :=
  { d with status := "published", timestamps.published_at := some now }

/-- ContentModel.publishContent: `update(ID, …)` goes through
`findOneAndUpdate({ID}, {$set: …})` in the base class (models/base.js:19-35),
which updates the first matching document and does not run the save hook. -/
def publishContent (docs : List ContentDoc) (ID : String) (now : Nat) :
    Except String (List ContentDoc) :=
  match updateFirst (fun d => d.ID == ID) (setPublished now) docs with
  | some docs' => Except.ok docs'
  | none => Except.error "Content publishing failed: Document not found"

/-- ContentSchema.methods.publish (models/schemas/Content.js:202-206): sets the
fields on the document and saves it, so the pre-save hook runs on a document
whose published_at is already set. -/
def contentPublishMethod (now : Nat) (d : ContentDoc) : ContentDoc :=
  contentPreSave now false
    { d with status := "published", timestamps.published_at := some now }

/-! ### Users -/

/-- User document (models/schemas/User in unnamed/part_000), restricted to the
fields the verified properties mention. -/
structure UserDoc where
  ID : String
  username : String
  email : String
  status : String
  email_verified_at : Option Nat := none
  email_verification_token : Option String := none
deriving DecidableEq

/-- The `$set` payload of UserModel.verifyEmail (models/user.js:95-106):
verified timestamp, token cleared, and status set to active unconditionally. -/
def setVerified (now : Nat) (u : UserDoc) : UserDoc :=
  { u with email_verified_at := some now,
           email_verification_token := none,
           status := "active" }

/-- UserModel.verifyEmail (models/user.js:95-106) via the base-class
`findOneAndUpdate`. -/
def verifyEmail (users : List UserDoc) (userId : String) (now : Nat) :
    Except String (List UserDoc) :=
  match updateFirst (fun u => u.ID == userId) (setVerified now) users with
  | some users' => Except.ok users'
  | none => Except.error "Email verification failed: Document not found"

/-- UserSchema.methods.verifyEmail (unnamed/part_000:549-556): promotes the
status to active only from pending. -/
def userVerifyEmailMethod (now : Nat) (u : UserDoc) : UserDoc :=
  { u with email_verified_at := some now,
           email_verification_token := none,
           status := if u.status == "pending" then "active" else u.status }

/-! ### Settings (models/settings.js, models/schemas/Settings.js) -/

mutual
/-- A `mongoose.Schema.Types.Mixed` setting value: JSON-like data.  `vNull`
models both JS `null` and `undefined`. -/
inductive SettingValue where
  | vNull
  | vStr (s : String)
  | vNum (n : Int)
  | vBool (b : Bool)
  | vObj (fields : SettingFields)
deriving DecidableEq

/-- Field list of an object-valued setting value. -/
inductive SettingFields where
  | nil
  | cons (key : String) (val : SettingValue) (rest : SettingFields)
deriving DecidableEq
end

/-- ValidationSchema (models/schemas/Settings.js:4-10).  Numeric and string
fields may be absent (`none`). -/
structure SettingValidation where
  required : Bool := false
  min_length : Option Nat := none
  max_length : Option Nat := none
  pattern : Option String := none
  options : Option (List SettingValue) := none
deriving DecidableEq

/-- Settings document (models/schemas/Settings.js:13-74). -/
structure Setting where
  key : String
  value : SettingValue
  type : String
  category : String
  label : String
  description : Option String := none
  default_value : Option SettingValue := none
  validation : Option SettingValidation := none
  access_level : String := "admin"
  editable : Bool := true
  updated_by : Option String := none
deriving DecidableEq

/-- The emptiness test of the `required` check:
`value === null || value === undefined || value === ''`. -/
def isEmptyValue : SettingValue → Bool
  | .vNull => true
  | .vStr s => s == ""
  | _ => false

/-- JS truthiness of an optional number (absent and 0 are falsy). -/
def jsTruthyNum : Option Nat → Bool
  | none => false
  | some n => n != 0

/-- JS truthiness of an optional string (absent and '' are falsy). -/
def jsTruthyStr : Option String → Bool
  | none => false
  | some s => s != ""

/-- The type-specific block of validateValue: the three string checks apply
only when the stored type is 'string' and the candidate value is itself a
string (`typeof value === 'string'`); this returns true when one of them
fails.  A `min_length`/`max_length` of 0 and a pattern of '' are skipped
because the JS guards test truthiness. -/
def validateStringFail (regexTest : String → String → Bool) (st : Setting)
    (v : SettingValidation) (value : SettingValue) : Bool :=
  match value with
  | .vStr s =>
    st.type == "string" &&
    ((jsTruthyNum v.min_length && decide (s.length < v.min_length.getD 0)) ||
     (jsTruthyNum v.max_length && decide (s.length > v.max_length.getD 0)) ||
     (jsTruthyStr v.pattern && !regexTest (v.pattern.getD "") s))
  | _ => false

/-- SettingsSchema.methods.validateValue (models/schemas/Settings.js:87-110).
`regexTest pat s` abstracts `new RegExp(pat).test(s)`. -/
def validateValue (regexTest : String → String → Bool) (st : Setting)
    (value : SettingValue) : Bool :=
  match st.validation with
  | none => true
  | some v =>
    if v.required && isEmptyValue value then false
    else if validateStringFail regexTest st v value then false
    else
      match v.options with
      | some opts => if 0 < opts.length && !(opts.contains value) then false else true
      | none => true

/-- SettingsModel.setSetting (models/settings.js:20-47): look the key up, fail
when undeclared, fail when validateValue rejects, else update the record via
`findOneAndUpdate`. -/
def setSetting (regexTest : String → String → Bool) (settings : List Setting)
    (key : String) (value : SettingValue) (userId : Option String) :
    Except String (List Setting) :=
  match settings.find? (fun s => s.key == key) with
  | none => Except.error "Set setting failed: Setting not found"
  | some st =>
    if !(validateValue regexTest st value) then
      Except.error "Set setting failed: Invalid value for setting"
    else
      match updateFirst (fun s => s.key == key)
          (fun s => { s with value := value, updated_by := userId }) settings with
      | some settings' => Except.ok settings'
      | none => Except.error "Set setting failed: Setting not found"

/-- Own member names of Object.prototype.  `levels` in
getSettingsByAccessLevel is a plain object literal, so the bracket lookup
`levels[accessLevel]` falls back to the prototype chain: for these names it
yields the inherited member (a function, or the prototype object itself for
__proto__), every one of which is truthy. -/
def objectPrototypeKeys : List String :=
  ["constructor", "hasOwnProperty", "isPrototypeOf", "propertyIsEnumerable",
   "toLocaleString", "toString", "valueOf", "__proto__",
   "__defineGetter__", "__defineSetter__", "__lookupGetter__", "__lookupSetter__"]

/-- The `levels[accessLevel] || ['public']` lookup of getSettingsByAccessLevel
(models/settings.js:73-79).  A name that misses the object and its prototype
entirely yields undefined and takes the `|| ['public']` default; an
Object.prototype member name yields a truthy non-array, modelled as `none`. -/
def accessLevels (accessLevel : String) : Option (List String) :=
  if accessLevel == "public" then some ["public"]
  else if accessLevel == "admin" then some ["public", "admin"]
  else if accessLevel == "super_admin" then some ["public", "admin", "super_admin"]
  else if objectPrototypeKeys.contains accessLevel then none
  else some ["public"]

/-- SettingsModel.getSettingsByAccessLevel (models/settings.js:71-88); the
`getlist` sort by category and label only reorders the result and is omitted.
When the lookup produced a truthy non-array, `$in` cannot be cast to an array
and the query throws, which the catch re-throws as a wrapped error. -/
def getSettingsByAccessLevel (settings : List Setting) (accessLevel : String) :
    Except String (List Setting) :=
  match accessLevels accessLevel with
  | some allowedLevels =>
    Except.ok (settings.filter (fun s => allowedLevels.contains s.access_level))
  | none =>
    Except.error "Get settings by access level failed: Cast to Array failed"

/-- The `smtp_settings` default value object of initializeDefaults. -/
def smtpDefaultValue : SettingValue :=
  .vObj (.cons "host" (.vStr "")
        (.cons "port" (.vNum 587)
        (.cons "secure" (.vBool false)
        (.cons "auth" (.vObj (.cons "user" (.vStr "")
                             (.cons "pass" (.vStr "") .nil))) .nil))))

/-- The fixed baseline list of SettingsSchema.statics.initializeDefaults
(models/schemas/Settings.js:164-246). -/
def defaultSettings : List Setting :=
  [ { key := "site_title", value := .vStr "My Website", type := "string",
      category := "general", label := "Site Title",
      description := some "The main title of your website",
      validation := some { required := true, max_length := some 100 },
      access_level := "admin" },
    { key := "site_description",
      value := .vStr "A great website built with Express.js", type := "string",
      category := "general", label := "Site Description",
      description := some "A brief description of your website",
      validation := some { max_length := some 160 },
      access_level := "admin" },
    { key := "default_meta_description", value := .vStr "Welcome to our website",
      type := "string", category := "seo", label := "Default Meta Description",
      description := some "Default meta description for pages without custom descriptions",
      validation := some { max_length := some 160 },
      access_level := "admin" },
    { key := "posts_per_page", value := .vNum 10, type := "number",
      category := "general", label := "Posts per Page",
      description := some "Number of posts to display per page",
      validation := some { required := true },
      access_level := "admin", default_value := some (.vNum 10) },
    { key := "enable_comments", value := .vBool true, type := "boolean",
      category := "general", label := "Enable Comments",
      description := some "Allow comments on blog posts",
      access_level := "admin", default_value := some (.vBool true) },
    { key := "smtp_settings", value := smtpDefaultValue, type := "object",
      category := "email", label := "SMTP Settings",
      description := some "Email server configuration",
      access_level := "super_admin" } ]

/-- One `updateOne({key}, {$setOnInsert: setting}, {upsert: true})` step:
insert the record only when its key is absent, never touch an existing one. -/
def upsertSetOnInsert (settings : List Setting) (st : Setting) : List Setting :=
  if settings.any (fun s => s.key == st.key) then settings else settings ++ [st]

/-- SettingsSchema.statics.initializeDefaults (models/schemas/Settings.js:164-246),
reached through SettingsModel.initializeDefaults (models/settings.js:243-249). -/
def initializeDefaults (settings : List Setting) : List Setting :=
  defaultSettings.foldl upsertSetOnInsert settings

/-! ### Sessions (SessionsSchema in models/schemas/Settings.js:257-465) -/

structure Session where
  session_id : String
  user_id : String
  ip_address : String
  user_agent : String
  created_at : Nat
  last_accessed : Nat
  expires_at : Nat
  is_active : Bool
deriving DecidableEq

/-- The 30-day maximum session lifetime of the pre-save hook, in milliseconds. -/
def maxSessionLifetimeMs : Nat := 30 * 24 * 60 * 60 * 1000

/-- SessionsSchema.pre('save') (models/schemas/Settings.js:438-448): clamp
expires_at to created_at plus 30 days. -/
def sessionPreSave (s : Session) : Session :=
  let maxExpiry := s.created_at + maxSessionLifetimeMs
  if s.expires_at > maxExpiry then { s with expires_at := maxExpiry } else s

/-- SessionsSchema.statics.createSession (models/schemas/Settings.js:383-404)
followed by the save-time clamp; `expires_in?` models the destructuring
default `expires_in = 86400`, and `now` is `Date.now()` (which also fills the
`created_at` and `last_accessed` defaults). -/
def createSession (now : Nat) (session_id user_id ip_address user_agent : String)
    (expires_in? : Option Nat) : Session :=
  let expires_in := expires_in?.getD 86400
  sessionPreSave
    { session_id := session_id, user_id := user_id,
      ip_address := ip_address, user_agent := user_agent,
      created_at := now, last_accessed := now,
      expires_at := now + expires_in * 1000,
      is_active := true }

/-! ### Decimal representation facts

The slug probes are built with JS template interpolation of the loop counter,
modelled by `toString : Nat → String` (decimal).  Distinct counters give
distinct probe strings; this needs injectivity of `Nat.repr`, proved here via
a decimal evaluation function. -/

def charToDigit (c : Char) : Nat := c.toNat - 48

def evalDecDigits (l : List Char) : Nat :=
  l.foldl (fun a c => 10 * a + charToDigit c) 0

theorem toDigitsCore_append (b : Nat) :
    ∀ (fuel n : Nat) (ds : List Char),
      Nat.toDigitsCore b fuel n ds = Nat.toDigitsCore b fuel n [] ++ ds := by
  intro fuel
  induction fuel with
  | zero => intro n ds; simp [Nat.toDigitsCore]
  | succ f ih =>
    intro n ds
    simp only [Nat.toDigitsCore]
    split
    · simp
    · rw [ih (n / b) ((n % b).digitChar :: ds), ih (n / b) [(n % b).digitChar]]
      simp

theorem charToDigit_digitChar (m : Nat) (h : m < 10) :
    charToDigit m.digitChar = m := by
  interval_cases m <;> rfl

theorem evalDec_append_digit (l : List Char) (c : Char) :
    evalDecDigits (l ++ [c]) = 10 * evalDecDigits l + charToDigit c := by
  simp [evalDecDigits, List.foldl_append]

theorem evalDec_toDigitsCore :
    ∀ fuel n, n < 10 ^ fuel →
      evalDecDigits (Nat.toDigitsCore 10 fuel n []) = n := by
  intro fuel
  induction fuel with
  | zero =>
    intro n h
    have : n = 0 := by omega
    subst this
    rfl
  | succ f ih =>
    intro n h
    simp only [Nat.toDigitsCore]
    split
    · rename_i hdiv
      have : evalDecDigits [(n % 10).digitChar] = charToDigit (n % 10).digitChar := by
        simp [evalDecDigits]
      rw [this, charToDigit_digitChar _ (Nat.mod_lt _ (by norm_num))]
      omega
    · rename_i hdiv
      rw [toDigitsCore_append, evalDec_append_digit,
          charToDigit_digitChar _ (Nat.mod_lt _ (by norm_num)),
          ih (n / 10) (by rw [pow_succ] at h; exact (Nat.div_lt_iff_lt_mul (by norm_num)).2 h)]
      omega

theorem natRepr_injective : ∀ m n : Nat, Nat.repr m = Nat.repr n → m = n := by
  intro m n h
  have hdata : Nat.toDigits 10 m = Nat.toDigits 10 n := congrArg String.data h
  have hm : m < 10 ^ (m + 1) :=
    lt_of_lt_of_le (Nat.lt_pow_self (by norm_num) m)
      (Nat.pow_le_pow_right (by norm_num) (Nat.le_succ m))
  have hn : n < 10 ^ (n + 1) :=
    lt_of_lt_of_le (Nat.lt_pow_self (by norm_num) n)
      (Nat.pow_le_pow_right (by norm_num) (Nat.le_succ n))
  calc m = evalDecDigits (Nat.toDigitsCore 10 (m + 1) m []) := (evalDec_toDigitsCore _ _ hm).symm
    _ = evalDecDigits (Nat.toDigitsCore 10 (n + 1) n []) := by
        show evalDecDigits (Nat.toDigits 10 m) = evalDecDigits (Nat.toDigits 10 n)
        rw [hdata]
    _ = n := evalDec_toDigitsCore _ _ hn

/-! ### Characterisation of the slug-probing loop -/

theorem slugProbe_succ (base : String) (n : Nat) :
    slugProbe base (n + 1) = base ++ "-" ++ Nat.repr (n + 1) := rfl

theorem slugProbe_injective (base : String) :
    Function.Injective (slugProbe base) := by
  have hlen : ∀ k, (slugProbe base (k + 1)).length =
      base.length + 1 + (Nat.repr (k + 1)).length := by
    intro k
    rw [slugProbe_succ, String.length_append, String.length_append]
    rfl
  intro m n h
  match m, n with
  | 0, 0 => rfl
  | 0, k + 1 =>
    exfalso
    have hl := congrArg String.length h
    rw [hlen k] at hl
    simp only [slugProbe] at hl
    omega
  | k + 1, 0 =>
    exfalso
    have hl := congrArg String.length h
    rw [hlen k] at hl
    simp only [slugProbe] at hl
    omega
  | j + 1, k + 1 =>
    rw [slugProbe_succ, slugProbe_succ] at h
    have hdata := congrArg String.data h
    simp only [String.data_append] at hdata
    have hrepr : (Nat.repr (j + 1)).data = (Nat.repr (k + 1)).data :=
      List.append_cancel_left hdata
    have hstr : Nat.repr (j + 1) = Nat.repr (k + 1) := congrArg String.mk hrepr
    rw [natRepr_injective _ _ hstr]

theorem exists_free_probe (docs : List ContentDoc) (excl : Option String)
    (base : String) :
    ∃ j, j ≤ docs.length ∧ slugTaken docs excl (slugProbe base j) = false := by
  by_contra hcon
  push_neg at hcon
  have htaken : ∀ j ≤ docs.length, slugTaken docs excl (slugProbe base j) = true := by
    intro j hj
    have := hcon j hj
    simpa using this
  have hmem : ∀ j ≤ docs.length, slugProbe base j ∈ docs.map (fun d => d.slug) := by
    intro j hj
    have h := htaken j hj
    simp only [slugTaken, List.any_eq_true, Bool.and_eq_true, beq_iff_eq] at h
    obtain ⟨d, hd, hslug, _⟩ := h
    exact List.mem_map.2 ⟨d, hd, hslug⟩
  have hcard : (Finset.range (docs.length + 1)).card ≤
      (docs.map (fun d => d.slug)).toFinset.card := by
    apply Finset.card_le_card_of_injOn (slugProbe base)
    · intro j hj
      rw [List.mem_toFinset]
      exact hmem j (by simpa [Nat.lt_succ_iff] using hj)
    · exact fun a _ b _ hab => slugProbe_injective base hab
  have hle : (docs.map (fun d => d.slug)).toFinset.card ≤ docs.length := by
    calc (docs.map (fun d => d.slug)).toFinset.card
        ≤ (docs.map (fun d => d.slug)).length := List.toFinset_card_le _
      _ = docs.length := List.length_map _ _
  rw [Finset.card_range] at hcard
  omega

theorem ensureUniqueSlugLoop_spec (taken : String → Bool) (base : String) :
    ∀ fuel k, (∃ j, j < fuel ∧ taken (slugProbe base (k + j)) = false) →
      ∃ j, taken (slugProbe base (k + j)) = false ∧
        (∀ i, i < j → taken (slugProbe base (k + i)) = true) ∧
        ensureUniqueSlugLoop taken base fuel (slugProbe base k) (k + 1) =
          some (slugProbe base (k + j)) := by
  intro fuel
  induction fuel with
  | zero =>
    rintro k ⟨j, hj, _⟩
    omega
  | succ f ih =>
    rintro k ⟨j, hj, hfree⟩
    by_cases htk : taken (slugProbe base k) = true
    · have hj0 : j ≠ 0 := by
        rintro rfl
        rw [Nat.add_zero] at hfree
        rw [hfree] at htk
        exact Bool.false_ne_true htk
      obtain ⟨j', rfl⟩ : ∃ j', j = j' + 1 := ⟨j - 1, by omega⟩
      have harg : k + 1 + j' = k + (j' + 1) := by omega
      obtain ⟨j'', hfree'', hmin'', heq''⟩ :=
        ih (k + 1) ⟨j', by omega, by rw [harg]; exact hfree⟩
      refine ⟨j'' + 1, ?_, ?_, ?_⟩
      · have : k + 1 + j'' = k + (j'' + 1) := by omega
        rw [← this]
        exact hfree''
      · intro i hi
        cases i with
        | zero => simpa using htk
        | succ i' =>
          have h := hmin'' i' (by omega)
          have : k + 1 + i' = k + (i' + 1) := by omega
          rw [← this]
          exact h
      · rw [ensureUniqueSlugLoop, if_pos htk]
        have harg2 : base ++ "-" ++ toString (k + 1) = slugProbe base (k + 1) := rfl
        rw [harg2, heq'']
        have : k + 1 + j'' = k + (j'' + 1) := by omega
        rw [this]
    · have hfalse : taken (slugProbe base k) = false := by
        simpa using htk
      refine ⟨0, by simpa using hfalse, by omega, ?_⟩
      rw [ensureUniqueSlugLoop, if_neg htk]
      simp

theorem ensureUniqueSlug_spec (docs : List ContentDoc) (excl : Option String)
    (base : String) :
    ∃ j, slugTaken docs excl (slugProbe base j) = false ∧
      (∀ i, i < j → slugTaken docs excl (slugProbe base i) = true) ∧
      ensureUniqueSlug docs base excl = some (slugProbe base j) := by
  obtain ⟨j, hj, hfree⟩ := exists_free_probe docs excl base
  have h := ensureUniqueSlugLoop_spec (slugTaken docs excl) base (docs.length + 1) 0
    ⟨j, by omega, by simpa using hfree⟩
  simpa [ensureUniqueSlug] using h

/-- C1: For every base slug s and every collection state, ensureUniqueSlug(s)
returns s itself when no document (other than the optionally excluded one) has
slug s; otherwise it returns s-N for the lowest N ≥ 1 such that s-N is not in
use.  In particular, inserting content titled "Hello World!" twice yields
slugs "hello-world" then "hello-world-1". -/
theorem ensureUniqueSlug_returns_lowest_free :
    (∀ (docs : List ContentDoc) (excl : Option String) (base : String),
      (slugTaken docs excl base = false →
        ensureUniqueSlug docs base excl = some base) ∧
      (slugTaken docs excl base = true →
        ∃ N, 1 ≤ N ∧
          ensureUniqueSlug docs base excl = some (base ++ "-" ++ Nat.repr N) ∧
          slugTaken docs excl (base ++ "-" ++ Nat.repr N) = false ∧
          ∀ m, 1 ≤ m → m < N →
            slugTaken docs excl (base ++ "-" ++ Nat.repr m) = true)) ∧
    (∃ d1 d2,
      contentInsert [] { title := some "Hello World!", type := some "blog",
                         status := some "draft" } "id1" 100 = Except.ok d1 ∧
      d1.slug = "hello-world" ∧
      contentInsert [d1] { title := some "Hello World!", type := some "blog",
                           status := some "draft" } "id2" 200 = Except.ok d2 ∧
      d2.slug = "hello-world-1") := by
  constructor
  · intro docs excl base
    obtain ⟨j, hfree, hmin, heq⟩ := ensureUniqueSlug_spec docs excl base
    constructor
    · intro hbase
      have hj0 : j = 0 := by
        by_contra hne
        have h0 := hmin 0 (by omega)
        simp only [slugProbe] at h0
        rw [hbase] at h0
        exact Bool.false_ne_true h0
      subst hj0
      simpa [slugProbe] using heq
    · intro hbase
      have hj0 : j ≠ 0 := by
        rintro rfl
        simp only [slugProbe] at hfree
        rw [hbase] at hfree
        simp at hfree
      obtain ⟨N', rfl⟩ : ∃ N', j = N' + 1 := ⟨j - 1, by omega⟩
      refine ⟨N' + 1, by omega, ?_, ?_, ?_⟩
      · rw [heq, slugProbe_succ]
      · rw [← slugProbe_succ]
        exact hfree
      · intro m hm1 hmN
        obtain ⟨m', rfl⟩ : ∃ m', m = m' + 1 := ⟨m - 1, by omega⟩
        rw [← slugProbe_succ]
        exact hmin (m' + 1) (by omega)
  · exact ⟨_, _, rfl, rfl, rfl, rfl⟩

/-- Witness for C1: at concrete inputs, the base slug is returned when free and
the suffixed slug is characterised when the base is taken. -/
theorem ensureUniqueSlug_returns_lowest_free_witness :
    (ensureUniqueSlug [] "x" none = some "x") ∧
    (∃ N, 1 ≤ N ∧
      ensureUniqueSlug [{ ID := "a", type := "page", title := "t", slug := "x",
                          status := "draft", visibility := "public" }] "x" none =
        some ("x" ++ "-" ++ Nat.repr N) ∧
      slugTaken [{ ID := "a", type := "page", title := "t", slug := "x",
                   status := "draft", visibility := "public" }] none
        ("x" ++ "-" ++ Nat.repr N) = false ∧
      ∀ m, 1 ≤ m → m < N →
        slugTaken [{ ID := "a", type := "page", title := "t", slug := "x",
                     status := "draft", visibility := "public" }] none
          ("x" ++ "-" ++ Nat.repr m) = true) :=
  ⟨(ensureUniqueSlug_returns_lowest_free.1 [] none "x").1 rfl,
   (ensureUniqueSlug_returns_lowest_free.1
      [{ ID := "a", type := "page", title := "t", slug := "x",
         status := "draft", visibility := "public" }] none "x").2 rfl⟩

/-- C10: For every finite collection state and every base slug, ensureUniqueSlug
terminates with a result: only finitely many slugs are in use, so some probe in
base, base-1, base-2, … is free, and the loop (run with fuel docs.length + 1)
returns the first such probe. -/
theorem ensureUniqueSlug_terminates :
    ∀ (docs : List ContentDoc) (excl : Option String) (base : String),
      (ensureUniqueSlug docs base excl).isSome = true := by
  intro docs excl base
  obtain ⟨j, _, _, heq⟩ := ensureUniqueSlug_spec docs excl base
  rw [heq]
  rfl


theorem mem_of_mem_dropWhile {α : Type} (p : α → Bool) (l : List α) (c : α)
    (h : c ∈ l.dropWhile p) : c ∈ l := by
  induction l with
  | nil => simp [List.dropWhile] at h
  | cons a t ih =>
    rw [List.dropWhile_cons] at h
    split at h
    · exact List.mem_cons_of_mem _ (ih h)
    · exact h

theorem mem_replaceWsRunsGo (fuel : Nat) (l : List Char) (c : Char)
    (h : c ∈ replaceWsRunsGo fuel l) :
    c = '-' ∨ (c ∈ l ∧ isJsWhitespace c = false) := by
  induction fuel, l using replaceWsRunsGo.induct with
  | case1 l => simp [replaceWsRunsGo] at h
  | case2 f => simp [replaceWsRunsGo] at h
  | case3 f a cs ha ih =>
    rw [replaceWsRunsGo, if_pos ha] at h
    rcases List.mem_cons.mp h with hc | hc
    · exact Or.inl hc
    · rcases ih hc with hc' | ⟨hmem, hws⟩
      · exact Or.inl hc'
      · exact Or.inr ⟨List.mem_cons_of_mem _ (mem_of_mem_dropWhile _ _ _ hmem), hws⟩
  | case4 f a cs ha ih =>
    rw [replaceWsRunsGo, if_neg ha] at h
    rcases List.mem_cons.mp h with hc | hc
    · subst hc
      exact Or.inr ⟨List.mem_cons_self _ _, by simpa using ha⟩
    · rcases ih hc with hc' | ⟨hmem, hws⟩
      · exact Or.inl hc'
      · exact Or.inr ⟨List.mem_cons_of_mem _ hmem, hws⟩

theorem mem_collapseHyphenRunsGo (fuel : Nat) (l : List Char) (c : Char)
    (h : c ∈ collapseHyphenRunsGo fuel l) : c ∈ l := by
  induction fuel, l using collapseHyphenRunsGo.induct with
  | case1 l => simp [collapseHyphenRunsGo] at h
  | case2 f => simp [collapseHyphenRunsGo] at h
  | case3 f cs ih =>
    rw [collapseHyphenRunsGo, if_pos rfl] at h
    rcases List.mem_cons.mp h with hc | hc
    · simp [hc]
    · exact List.mem_cons_of_mem _ (mem_of_mem_dropWhile _ _ _ (ih hc))
  | case4 f a cs ha ih =>
    rw [collapseHyphenRunsGo, if_neg ha] at h
    rcases List.mem_cons.mp h with hc | hc
    · simp [hc]
    · exact List.mem_cons_of_mem _ (ih hc)

theorem head?_collapseHyphenRunsGo (fuel : Nat) (l : List Char) (c : Char)
    (h : (collapseHyphenRunsGo fuel l).head? = some c) : l.head? = some c := by
  match fuel, l with
  | 0, _ => simp [collapseHyphenRunsGo] at h
  | f + 1, [] => simp [collapseHyphenRunsGo] at h
  | f + 1, a :: cs =>
    rw [collapseHyphenRunsGo] at h
    split at h
    · rename_i ha
      simp at h
      simp [← h, ha]
    · rw [List.head?_cons] at h
      rw [List.head?_cons]
      exact h

theorem chain'_collapseHyphenRunsGo (fuel : Nat) (l : List Char) :
    List.Chain' (fun a b => ¬(a = '-' ∧ b = '-')) (collapseHyphenRunsGo fuel l) := by
  induction fuel, l using collapseHyphenRunsGo.induct with
  | case1 l => exact List.chain'_nil
  | case2 f => exact List.chain'_nil
  | case3 f cs ih =>
    rw [collapseHyphenRunsGo, if_pos rfl]
    rw [List.chain'_cons']
    refine ⟨?_, ih⟩
    intro y hy
    have h1 := head?_collapseHyphenRunsGo _ _ _ hy
    have h2 := head?_dropWhile_false _ _ _ h1
    simp at h2
    simp [h2]
  | case4 f a cs ha ih =>
    rw [collapseHyphenRunsGo, if_neg ha]
    rw [List.chain'_cons']
    refine ⟨?_, ih⟩
    intro y _
    simp
    intro hcon
    exact absurd hcon ha


theorem stripLeadHyphen_cases (l : List Char) :
    (∃ t, l = '-' :: t ∧ stripLeadHyphen l = t) ∨
    (stripLeadHyphen l = l ∧ l.head? ≠ some '-') := by
  unfold stripLeadHyphen
  split
  · rename_i t
    exact Or.inl ⟨t, rfl, rfl⟩
  · rename_i hne
    refine Or.inr ⟨rfl, ?_⟩
    match l with
    | [] => simp
    | a :: t =>
      intro hc
      simp at hc
      exact hne t (by rw [hc])

theorem mem_stripLeadHyphen (l : List Char) (c : Char)
    (h : c ∈ stripLeadHyphen l) : c ∈ l := by
  rcases stripLeadHyphen_cases l with ⟨t, rfl, heq⟩ | ⟨heq, _⟩
  · rw [heq] at h
    exact List.mem_cons_of_mem _ h
  · rwa [heq] at h

theorem chain'_stripLeadHyphen (R : Char → Char → Prop) (l : List Char)
    (h : List.Chain' R l) : List.Chain' R (stripLeadHyphen l) := by
  rcases stripLeadHyphen_cases l with ⟨t, rfl, heq⟩ | ⟨heq, _⟩
  · rw [heq]
    exact h.tail
  · rwa [heq]

theorem head?_stripLeadHyphen (l : List Char)
    (h : List.Chain' (fun a b => ¬(a = '-' ∧ b = '-')) l) :
    (stripLeadHyphen l).head? ≠ some '-' := by
  rcases stripLeadHyphen_cases l with ⟨t, rfl, heq⟩ | ⟨heq, hhd⟩
  · rw [heq]
    match t, h with
    | [], _ => simp
    | x :: t', h =>
      rw [List.chain'_cons] at h
      intro hc
      simp at hc
      exact h.1 ⟨rfl, hc⟩
  · rwa [heq]

theorem getLast?_stripLeadHyphen (l : List Char) :
    (stripLeadHyphen l).getLast? = l.getLast? ∨
    (stripLeadHyphen l).getLast? = none := by
  rcases stripLeadHyphen_cases l with ⟨t, rfl, heq⟩ | ⟨heq, _⟩
  · rw [heq]
    match t with
    | [] => exact Or.inr rfl
    | x :: t' => exact Or.inl (List.getLast?_cons_cons).symm
  · rw [heq]
    exact Or.inl rfl

theorem hyphenRel_symm {a b : Char} (h : ¬(a = '-' ∧ b = '-')) :
    ¬(b = '-' ∧ a = '-') := fun ⟨h1, h2⟩ => h ⟨h2, h1⟩

theorem chain'_reverse_hyphen (l : List Char)
    (h : List.Chain' (fun a b => ¬(a = '-' ∧ b = '-')) l) :
    List.Chain' (fun a b => ¬(a = '-' ∧ b = '-')) l.reverse := by
  rw [List.chain'_reverse]
  exact h.imp fun a b hab => hyphenRel_symm hab

theorem stripEdgeHyphens_spec (l : List Char)
    (h : List.Chain' (fun a b => ¬(a = '-' ∧ b = '-')) l) :
    (∀ c ∈ stripEdgeHyphens l, c ∈ l) ∧
    List.Chain' (fun a b => ¬(a = '-' ∧ b = '-')) (stripEdgeHyphens l) ∧
    (stripEdgeHyphens l).head? ≠ some '-' ∧
    (stripEdgeHyphens l).getLast? ≠ some '-' := by
  have h1 : List.Chain' (fun a b => ¬(a = '-' ∧ b = '-')) (stripLeadHyphen l) :=
    chain'_stripLeadHyphen _ _ h
  have hr : List.Chain' (fun a b => ¬(a = '-' ∧ b = '-')) (stripLeadHyphen l).reverse :=
    chain'_reverse_hyphen _ h1
  have h2 : List.Chain' (fun a b => ¬(a = '-' ∧ b = '-'))
      (stripLeadHyphen ((stripLeadHyphen l).reverse)) :=
    chain'_stripLeadHyphen _ _ hr
  refine ⟨?_, ?_, ?_, ?_⟩
  · intro c hc
    rw [stripEdgeHyphens, List.mem_reverse] at hc
    have := mem_stripLeadHyphen _ _ hc
    rw [List.mem_reverse] at this
    exact mem_stripLeadHyphen _ _ this
  · exact chain'_reverse_hyphen _ h2
  · rw [stripEdgeHyphens, ← List.getLast?_eq_head?_reverse]
    rcases getLast?_stripLeadHyphen ((stripLeadHyphen l).reverse) with heq | heq
    · rw [heq, List.getLast?_eq_head?_reverse, List.reverse_reverse]
      exact head?_stripLeadHyphen _ h
    · rw [heq]
      simp
  · rw [stripEdgeHyphens, List.getLast?_eq_head?_reverse, List.reverse_reverse]
    exact head?_stripLeadHyphen _ hr


theorem toLower_of_isSlugChar (c : Char) (h : isSlugChar c = true) :
    c.toLower = c := by
  simp only [isSlugChar, Bool.or_eq_true, Bool.and_eq_true, decide_eq_true_eq] at h
  rcases h with (⟨h1, h2⟩ | ⟨h1, h2⟩) | h1
  · simp only [Char.toLower]
    split
    · rename_i hcond
      exfalso
      rw [Char.le_def] at h1 h2
      have h1' : 97 ≤ c.toNat := h1
      have h2' : c.toNat ≤ 122 := h2
      omega
    · rfl
  · simp only [Char.toLower]
    split
    · rename_i hcond
      exfalso
      rw [Char.le_def] at h1 h2
      have h1' : 48 ≤ c.toNat := h1
      have h2' : c.toNat ≤ 57 := h2
      omega
    · rfl
  · subst h1
    rfl

theorem generateSlug_chars (title : String) (c : Char)
    (h : c ∈ (generateSlug title).data) : isSlugChar c = true := by
  have hc : c ∈ stripEdgeHyphens
      (collapseHyphenRuns
        (replaceWsRuns ((jsTrim (lowerStr title).data).filter slugKeepChar))) := h
  have hchain0 := chain'_collapseHyphenRunsGo
    ((replaceWsRuns ((jsTrim (lowerStr title).data).filter slugKeepChar)).length)
    (replaceWsRuns ((jsTrim (lowerStr title).data).filter slugKeepChar))
  have hsub := (stripEdgeHyphens_spec _ hchain0).1
  have hc1 := hsub c hc
  have hc2 := mem_collapseHyphenRunsGo _ _ _ hc1
  rcases mem_replaceWsRunsGo _ _ _ hc2 with hdash | ⟨hmem, hws⟩
  · subst hdash
    rfl
  · have hkeep := (List.mem_filter.mp hmem).2
    simp only [slugKeepChar, Bool.or_eq_true] at hkeep
    rcases hkeep with (((haz | hdig) | hwstrue)) | hdashb
    · simp [isSlugChar, haz]
    · simp [isSlugChar, hdig]
    · rw [hwstrue] at hws
      simp at hws
    · simp [isSlugChar, hdashb]

/-- C2: For every title string T, generateSlug(T) is entirely lowercase,
matches ^[a-z0-9-]*$ (every character is a lowercase letter, digit, or
hyphen), and contains no leading hyphen, no trailing hyphen, and no two
consecutive hyphens. -/
theorem generateSlug_wellformed (title : String) :
    (generateSlug title).data.all isSlugChar = true ∧
    lowerStr (generateSlug title) = generateSlug title ∧
    (generateSlug title).data.head? ≠ some '-' ∧
    (generateSlug title).data.getLast? ≠ some '-' ∧
    List.Chain' (fun a b => ¬(a = '-' ∧ b = '-')) (generateSlug title).data := by
  have hchain0 := chain'_collapseHyphenRunsGo
    ((replaceWsRuns ((jsTrim (lowerStr title).data).filter slugKeepChar)).length)
    (replaceWsRuns ((jsTrim (lowerStr title).data).filter slugKeepChar))
  obtain ⟨hmem, hchain, hhead, hlast⟩ := stripEdgeHyphens_spec _ hchain0
  refine ⟨?_, ?_, hhead, hlast, hchain⟩
  · rw [List.all_eq_true]
    intro c hc
    exact generateSlug_chars title c hc
  · show String.mk ((generateSlug title).data.map Char.toLower) = generateSlug title
    have : (generateSlug title).data.map Char.toLower = (generateSlug title).data := by
      have := List.map_congr_left (f := Char.toLower) (g := id)
        (fun c hc => toLower_of_isSlugChar c (generateSlug_chars title c hc))
      rw [this, List.map_id]
    rw [this]

theorem generateSlug_wellformed_witness :
    (generateSlug "Hello World!").data.all isSlugChar = true ∧
    lowerStr (generateSlug "Hello World!") = generateSlug "Hello World!" ∧
    (generateSlug "Hello World!").data.head? ≠ some '-' ∧
    (generateSlug "Hello World!").data.getLast? ≠ some '-' ∧
    List.Chain' (fun a b => ¬(a = '-' ∧ b = '-')) (generateSlug "Hello World!").data :=
  generateSlug_wellformed "Hello World!"


theorem contentPreSave_slug (now : Nat) (isNew : Bool) (d : ContentDoc) :
    (contentPreSave now isNew d).slug = d.slug := by
  simp only [contentPreSave]
  split
  · split <;> rfl
  · split <;> rfl

/-- C9: There exists a non-empty title containing no ASCII letters or digits
(for example "!!!") for which generateSlug returns the empty string;
consequently Content.insert with such a title and no explicit slug attempts to
persist an empty slug, which violates the schema slug rules (required,
pattern ^[a-z0-9-]+$), so the insert fails with an error rather than storing
the document. -/
theorem emptySlug_insert_fails :
    generateSlug "!!!" = "" ∧
    ("!!!" : String) ≠ "" ∧
    (∀ c ∈ ("!!!" : String).data,
      (('a' ≤ c && c ≤ 'z') || ('A' ≤ c && c ≤ 'Z') || ('0' ≤ c && c ≤ '9')) = false) ∧
    ∀ (docs : List ContentDoc) (newID : String) (now : Nat),
      (∀ d ∈ docs, d.slug ≠ "") →
      ∃ msg, contentInsert docs { title := some "!!!" } newID now = Except.error msg := by
  refine ⟨rfl, by decide, by decide, ?_⟩
  intro docs newID now hno
  have hfree : slugTaken docs none "" = false := by
    rw [slugTaken, List.any_eq_false]
    intro d hd
    simp only [Bool.and_eq_true, beq_iff_eq, not_and]
    intro hcon
    exact absurd hcon (hno d hd)
  obtain ⟨j, hfreej, hminj, heq⟩ := ensureUniqueSlug_spec docs none ""
  have hj : j = 0 := by
    by_contra hne
    have h0 := hminj 0 (by omega)
    simp only [slugProbe] at h0
    rw [hfree] at h0
    exact Bool.false_ne_true h0
  subst hj
  simp only [slugProbe] at heq
  refine ⟨"Insert failed: Content validation failed", ?_⟩
  have hstep : contentInsert docs { title := some "!!!" } newID now =
      (match ensureUniqueSlug docs "" none with
       | none => Except.error "Content creation failed: slug probe fuel exhausted"
       | some slug =>
         contentSave docs now
           { ID := newID, type := "page", title := "!!!", slug := slug,
             status := "draft", visibility := "public", content := none }) := rfl
  rw [hstep, heq]
  rfl

/-- Witness for C9: inserting a content titled "!!!" into the empty collection
fails. -/
theorem emptySlug_insert_fails_witness :
    ∃ msg, contentInsert [] { title := some "!!!" } "i" 0 = Except.error msg :=
  emptySlug_insert_fails.2.2.2 [] "i" 0 (by simp)

/-! ### C4: publishing and the published_at stamp -/

theorem updateFirst_eq_some {α : Type} (p : α → Bool) (f : α → α) :
    ∀ (l l' : List α), updateFirst p f l = some l' →
      ∃ pre d post, l = pre ++ d :: post ∧ (∀ e ∈ pre, p e = false) ∧
        p d = true ∧ l' = pre ++ f d :: post := by
  intro l
  induction l with
  | nil => intro l' h; simp [updateFirst] at h
  | cons a t ih =>
    intro l' h
    rw [updateFirst] at h
    split at h
    · rename_i hpa
      simp only [Option.some.injEq] at h
      exact ⟨[], a, t, by simp, by simp, hpa, by simp [← h]⟩
    · rename_i hpa
      cases hu : updateFirst p f t with
      | none => rw [hu] at h; simp at h
      | some t' =>
        rw [hu] at h
        simp at h
        obtain ⟨pre, d, post, ht, hpre, hd, ht'⟩ := ih t' hu
        refine ⟨a :: pre, d, post, by simp [ht], ?_, hd, by simp [← h, ht']⟩
        intro e he
        rcases List.mem_cons.mp he with rfl | he'
        · simpa using hpa
        · exact hpre e he'

/-- A published content document whose published_at stamp is already set
(to time 5). -/
def publishedDoc5 : ContentDoc :=
  { ID := "c1", type := "blog", title := "T", slug := "t",
    status := "published", visibility := "public", content := some "body",
    timestamps := { created_at := some 1, updated_at := some 1,
                    published_at := some 5 } }

/-- Counterexample to C4 as stated: publishing again a document whose
published_at is already 5, at time 7, overwrites the stamp with 7. -/
theorem publishContent_restamps_counterexample :
    ∃ docs', publishContent [publishedDoc5] "c1" 7 = Except.ok docs' ∧
      docs'.map (fun d => d.timestamps.published_at) = [some 7] ∧
      publishedDoc5.timestamps.published_at = some 5 ∧
      (some 7 : Option Nat) ≠ some 5 :=
  ⟨_, rfl, rfl, rfl, by decide⟩

/-- C4 (amended): the publish operation sets status to published and stamps
timestamps.published_at with the current time unconditionally, overwriting a
value that is already present (both in the model-level publishContent update
and in the schema publish method); only the pre-save middleware stamps
published_at conditionally, when it is unset on a published document, and
leaves an already-present value unchanged. -/
theorem publishContent_stamps_unconditionally :
    (∀ (now : Nat) (d : ContentDoc),
      (setPublished now d).status = "published" ∧
      (setPublished now d).timestamps.published_at = some now) ∧
    (∀ (docs : List ContentDoc) (ID : String) (now : Nat) (docs' : List ContentDoc),
      publishContent docs ID now = Except.ok docs' →
      ∃ pre d post, docs = pre ++ d :: post ∧
        (∀ e ∈ pre, (e.ID == ID) = false) ∧ (d.ID == ID) = true ∧
        docs' = pre ++ setPublished now d :: post) ∧
    (∀ (now : Nat) (d : ContentDoc), d.status = "published" →
      d.timestamps.published_at = none →
      (contentPreSave now false d).timestamps.published_at = some now) ∧
    (∀ (now : Nat) (d : ContentDoc) (t : Nat), d.timestamps.published_at = some t →
      (contentPreSave now false d).timestamps.published_at = some t) ∧
    (∀ (now : Nat) (d : ContentDoc),
      (contentPublishMethod now d).timestamps.published_at = some now) := by
  refine ⟨fun now d => ⟨rfl, rfl⟩, ?_, ?_, ?_, ?_⟩
  · intro docs ID now docs' h
    rw [publishContent] at h
    cases hu : updateFirst (fun d => d.ID == ID) (setPublished now) docs with
    | none => rw [hu] at h; simp at h
    | some l' =>
      rw [hu] at h
      simp only [Except.ok.injEq] at h
      obtain ⟨pre, d, post, hdocs, hpre, hd, hl'⟩ := updateFirst_eq_some _ _ _ _ hu
      exact ⟨pre, d, post, hdocs, hpre, hd, by rw [← h, hl']⟩
  · intro now d hst hpub
    simp [contentPreSave, hst, hpub]
  · intro now d t hpub
    simp [contentPreSave, hpub]
  · intro now d
    simp [contentPublishMethod, contentPreSave]

/-- Witness for C4 (amended) at the concrete document publishedDoc5 and
time 7. -/
theorem publishContent_stamps_unconditionally_witness :
    ((setPublished 7 publishedDoc5).status = "published" ∧
     (setPublished 7 publishedDoc5).timestamps.published_at = some 7) ∧
    (∃ pre d post, ([publishedDoc5] : List ContentDoc) = pre ++ d :: post ∧
      (∀ e ∈ pre, (e.ID == "c1") = false) ∧ (d.ID == "c1") = true ∧
      [setPublished 7 publishedDoc5] = pre ++ setPublished 7 d :: post) ∧
    ((contentPreSave 7 false
        { publishedDoc5 with timestamps.published_at := none }).timestamps.published_at =
      some 7) ∧
    ((contentPreSave 7 false publishedDoc5).timestamps.published_at = some 5) ∧
    ((contentPublishMethod 7 publishedDoc5).timestamps.published_at = some 7) :=
  ⟨publishContent_stamps_unconditionally.1 7 publishedDoc5,
   publishContent_stamps_unconditionally.2.1 [publishedDoc5] "c1" 7
     [setPublished 7 publishedDoc5] rfl,
   publishContent_stamps_unconditionally.2.2.1 7
     { publishedDoc5 with timestamps.published_at := none } rfl rfl,
   publishContent_stamps_unconditionally.2.2.2.1 7 publishedDoc5 5 rfl,
   publishContent_stamps_unconditionally.2.2.2.2 7 publishedDoc5⟩

/-! ### C7: email verification and user status -/

/-- A suspended user with a pending verification token. -/
def suspendedUser : UserDoc :=
  { ID := "u1", username := "bob", email := "bob@example.com",
    status := "suspended", email_verified_at := none,
    email_verification_token := some "tok" }

/-- Counterexample to C7 as stated: the model-level verifyEmail activates a
suspended user instead of keeping its status. -/
theorem verifyEmail_activates_suspended_counterexample :
    ∃ users', verifyEmail [suspendedUser] "u1" 9 = Except.ok users' ∧
      users'.map (fun u => u.status) = ["active"] ∧
      suspendedUser.status = "suspended" ∧
      ("active" : String) ≠ "suspended" :=
  ⟨_, rfl, rfl, rfl, by decide⟩

/-- C7 (amended): the model-level verifyEmail(u.ID) clears the verification
token, sets email_verified_at, and sets the status to active regardless of the
previous status (so a suspended user becomes active); only the schema-level
instance method verifyEmail promotes pending to active and keeps any other
status. -/
theorem verifyEmail_model_vs_schema :
    (∀ (now : Nat) (u : UserDoc),
      (setVerified now u).status = "active" ∧
      (setVerified now u).email_verified_at = some now ∧
      (setVerified now u).email_verification_token = none) ∧
    (∀ (users : List UserDoc) (userId : String) (now : Nat) (users' : List UserDoc),
      verifyEmail users userId now = Except.ok users' →
      ∃ pre u post, users = pre ++ u :: post ∧
        (∀ e ∈ pre, (e.ID == userId) = false) ∧ (u.ID == userId) = true ∧
        users' = pre ++ setVerified now u :: post) ∧
    (∀ (now : Nat) (u : UserDoc),
      (userVerifyEmailMethod now u).email_verified_at = some now ∧
      (userVerifyEmailMethod now u).email_verification_token = none ∧
      (userVerifyEmailMethod now u).status =
        (if u.status == "pending" then "active" else u.status)) := by
  refine ⟨fun now u => ⟨rfl, rfl, rfl⟩, ?_, fun now u => ⟨rfl, rfl, rfl⟩⟩
  intro users userId now users' h
  rw [verifyEmail] at h
  cases hu : updateFirst (fun u => u.ID == userId) (setVerified now) users with
  | none => rw [hu] at h; simp at h
  | some l' =>
    rw [hu] at h
    simp only [Except.ok.injEq] at h
    obtain ⟨pre, u, post, husers, hpre, hd, hl'⟩ := updateFirst_eq_some _ _ _ _ hu
    exact ⟨pre, u, post, husers, hpre, hd, by rw [← h, hl']⟩

/-- Witness for C7 (amended) at the concrete suspended user. -/
theorem verifyEmail_model_vs_schema_witness :
    ((setVerified 9 suspendedUser).status = "active" ∧
     (setVerified 9 suspendedUser).email_verified_at = some 9 ∧
     (setVerified 9 suspendedUser).email_verification_token = none) ∧
    (∃ pre u post, ([suspendedUser] : List UserDoc) = pre ++ u :: post ∧
      (∀ e ∈ pre, (e.ID == "u1") = false) ∧ (u.ID == "u1") = true ∧
      [setVerified 9 suspendedUser] = pre ++ setVerified 9 u :: post) ∧
    ((userVerifyEmailMethod 9 suspendedUser).email_verified_at = some 9 ∧
     (userVerifyEmailMethod 9 suspendedUser).email_verification_token = none ∧
     (userVerifyEmailMethod 9 suspendedUser).status =
       (if suspendedUser.status == "pending" then "active" else suspendedUser.status)) :=
  ⟨verifyEmail_model_vs_schema.1 9 suspendedUser,
   verifyEmail_model_vs_schema.2.1 [suspendedUser] "u1" 9 [setVerified 9 suspendedUser] rfl,
   verifyEmail_model_vs_schema.2.2 9 suspendedUser⟩


/-! ### C8: session expiry clamp -/

/-- C8: For every session created via createSession with expiry parameter
expires_in seconds, the stored expires_at equals creation time plus expires_in
seconds when that is at most 30 days, and is clamped at save time to exactly
created_at plus 30 days otherwise; in particular expires_in = 40*24*3600
yields expires_at = created_at + 30 days. -/
theorem createSession_clamps_expiry :
    ∀ (now : Nat) (sid uid ip ua : String) (expires_in : Nat),
      (expires_in ≤ 30 * 24 * 3600 →
        (createSession now sid uid ip ua (some expires_in)).expires_at =
          now + expires_in * 1000) ∧
      (30 * 24 * 3600 < expires_in →
        (createSession now sid uid ip ua (some expires_in)).expires_at =
          now + 30 * 24 * 3600 * 1000) ∧
      (createSession now sid uid ip ua (some expires_in)).created_at = now ∧
      (createSession now sid uid ip ua (some (40 * 24 * 3600))).expires_at =
        now + 30 * 24 * 3600 * 1000 := by
  intro now sid uid ip ua expires_in
  refine ⟨?_, ?_, ?_, ?_⟩
  · intro hle
    simp only [createSession, sessionPreSave, maxSessionLifetimeMs, Option.getD]
    split
    · rename_i hgt
      omega
    · rfl
  · intro hgt
    simp only [createSession, sessionPreSave, maxSessionLifetimeMs, Option.getD]
    split
    · rfl
    · rename_i hng
      omega
  · simp only [createSession, sessionPreSave, maxSessionLifetimeMs, Option.getD]
    split <;> rfl
  · simp only [createSession, sessionPreSave, maxSessionLifetimeMs, Option.getD]
    split
    · rfl
    · rename_i hng
      omega

/-- Witness for C8 at concrete times: a 1-hour expiry is kept, a 40-day expiry
is clamped. -/
theorem createSession_clamps_expiry_witness :
    (createSession 0 "s" "u" "ip" "ua" (some 3600)).expires_at = 0 + 3600 * 1000 ∧
    (createSession 0 "s" "u" "ip" "ua" (some (40 * 24 * 3600))).expires_at =
      0 + 30 * 24 * 3600 * 1000 ∧
    (createSession 0 "s" "u" "ip" "ua" (some 3600)).created_at = 0 :=
  ⟨(createSession_clamps_expiry 0 "s" "u" "ip" "ua" 3600).1 (by norm_num),
   (createSession_clamps_expiry 0 "s" "u" "ip" "ua" (40 * 24 * 3600)).2.1 (by norm_num),
   (createSession_clamps_expiry 0 "s" "u" "ip" "ua" 3600).2.2.1⟩

/-! ### C6: cumulative access levels -/

/-- A public setting and a super_admin setting used as the concrete state for
the C6 counterexample and witness. -/
def publicSettingA : Setting :=
  { key := "a", value := .vBool true, type := "boolean", category := "general",
    label := "A", access_level := "public" }

def superSettingB : Setting :=
  { key := "b", value := .vBool true, type := "boolean", category := "general",
    label := "B", access_level := "super_admin" }

/-- Counterexample to C6 as stated: "toString" is an unrecognized level
argument, but the prototype-chain lookup makes `levels["toString"]` a truthy
inherited function, so the call fails instead of returning the same result as
'public'. -/
theorem getSettingsByAccessLevel_prototype_counterexample :
    ("toString" : String) ≠ "public" ∧ ("toString" : String) ≠ "admin" ∧
    ("toString" : String) ≠ "super_admin" ∧
    (∃ e, getSettingsByAccessLevel [publicSettingA] "toString" = Except.error e) ∧
    getSettingsByAccessLevel [publicSettingA] "public" = Except.ok [publicSettingA] ∧
    getSettingsByAccessLevel [publicSettingA] "toString" ≠
      getSettingsByAccessLevel [publicSettingA] "public" := by
  refine ⟨by decide, by decide, by decide, ⟨_, rfl⟩, rfl, ?_⟩
  intro h
  exact Except.noConfusion h

/-- C6 (amended): getSettingsByAccessLevel('public') returns exactly the
public settings, 'admin' exactly the union of public and admin settings and
never a super_admin-only setting, and 'super_admin' all three levels; an
unrecognized level argument that misses the lookup object and its prototype
returns the same result as 'public', but an Object.prototype member name
(e.g. 'toString' or 'constructor') makes the lookup yield a truthy inherited
non-array, so the call fails with an error instead. -/
theorem getSettingsByAccessLevel_hierarchy :
    ∀ (settings : List Setting) (s : Setting),
      (∃ l, getSettingsByAccessLevel settings "public" = Except.ok l ∧
        (s ∈ l ↔ s ∈ settings ∧ s.access_level = "public")) ∧
      (∃ l, getSettingsByAccessLevel settings "admin" = Except.ok l ∧
        (s ∈ l ↔ s ∈ settings ∧ (s.access_level = "public" ∨ s.access_level = "admin")) ∧
        (s.access_level = "super_admin" → s ∉ l)) ∧
      (∃ l, getSettingsByAccessLevel settings "super_admin" = Except.ok l ∧
        (s ∈ l ↔ s ∈ settings ∧ (s.access_level = "public" ∨ s.access_level = "admin" ∨
          s.access_level = "super_admin"))) ∧
      (∀ lvl, lvl ≠ "public" → lvl ≠ "admin" → lvl ≠ "super_admin" →
        objectPrototypeKeys.contains lvl = false →
        getSettingsByAccessLevel settings lvl = getSettingsByAccessLevel settings "public") ∧
      (∀ lvl, objectPrototypeKeys.contains lvl = true →
        ∃ e, getSettingsByAccessLevel settings lvl = Except.error e) := by
  intro settings s
  refine ⟨⟨_, rfl, ?_⟩, ⟨_, rfl, ?_, ?_⟩, ⟨_, rfl, ?_⟩, ?_, ?_⟩
  · simp [List.mem_filter]
  · simp [List.mem_filter]
  · intro hsl hmem
    rw [List.mem_filter] at hmem
    simp [hsl] at hmem
  · simp [List.mem_filter]
  · intro lvl h1 h2 h3 hproto
    have hdef : accessLevels lvl = some ["public"] := by
      rw [accessLevels, if_neg (by simp [h1]), if_neg (by simp [h2]),
          if_neg (by simp [h3]), if_neg (by simpa using hproto)]
    rw [getSettingsByAccessLevel, getSettingsByAccessLevel, hdef]
    rfl
  · intro lvl hproto
    have h1 : lvl ≠ "public" := by
      intro h
      subst h
      exact absurd hproto (by decide)
    have h2 : lvl ≠ "admin" := by
      intro h
      subst h
      exact absurd hproto (by decide)
    have h3 : lvl ≠ "super_admin" := by
      intro h
      subst h
      exact absurd hproto (by decide)
    have hdef : accessLevels lvl = none := by
      rw [accessLevels, if_neg (by simp [h1]), if_neg (by simp [h2]),
          if_neg (by simp [h3]), if_pos hproto]
    rw [getSettingsByAccessLevel, hdef]
    exact ⟨_, rfl⟩

/-- Witness for C6 (amended) at a concrete two-setting state, the
plain-missing level "editor", and the prototype member name "toString". -/
theorem getSettingsByAccessLevel_hierarchy_witness :
    (∃ l, getSettingsByAccessLevel [publicSettingA, superSettingB] "admin" = Except.ok l ∧
      (publicSettingA ∈ l ↔ publicSettingA ∈ [publicSettingA, superSettingB] ∧
        (publicSettingA.access_level = "public" ∨ publicSettingA.access_level = "admin")) ∧
      (publicSettingA.access_level = "super_admin" → publicSettingA ∉ l)) ∧
    getSettingsByAccessLevel [publicSettingA, superSettingB] "editor" =
      getSettingsByAccessLevel [publicSettingA, superSettingB] "public" ∧
    (∃ e, getSettingsByAccessLevel [publicSettingA, superSettingB] "toString" =
      Except.error e) :=
  ⟨(getSettingsByAccessLevel_hierarchy [publicSettingA, superSettingB] publicSettingA).2.1,
   (getSettingsByAccessLevel_hierarchy [publicSettingA, superSettingB] publicSettingA).2.2.2.1
     "editor" (by decide) (by decide) (by decide) (by decide),
   (getSettingsByAccessLevel_hierarchy [publicSettingA, superSettingB] publicSettingA).2.2.2.2
     "toString" (by decide)⟩


/-! ### C5: initializeDefaults is an insert-only seed -/

theorem find?_upsertSetOnInsert (l : List Setting) (st : Setting) (k : String)
    (v : Setting) (h : l.find? (fun s => s.key == k) = some v) :
    (upsertSetOnInsert l st).find? (fun s => s.key == k) = some v := by
  rw [upsertSetOnInsert]
  split
  · exact h
  · rw [List.find?_append, h]
    rfl

theorem find?_foldl_upsert (L : List Setting) :
    ∀ (acc : List Setting) (k : String) (v : Setting),
      acc.find? (fun s => s.key == k) = some v →
      (L.foldl upsertSetOnInsert acc).find? (fun s => s.key == k) = some v := by
  induction L with
  | nil => intro acc k v h; exact h
  | cons d t ih =>
    intro acc k v h
    exact ih _ k v (find?_upsertSetOnInsert acc d k v h)

theorem any_upsertSetOnInsert_self (l : List Setting) (st : Setting) :
    (upsertSetOnInsert l st).any (fun s => s.key == st.key) = true := by
  rw [upsertSetOnInsert]
  split
  · assumption
  · rw [List.any_append]
    simp

theorem any_upsertSetOnInsert_mono (l : List Setting) (st : Setting) (k : String)
    (h : l.any (fun s => s.key == k) = true) :
    (upsertSetOnInsert l st).any (fun s => s.key == k) = true := by
  rw [upsertSetOnInsert]
  split
  · exact h
  · rw [List.any_append, h]
    rfl

theorem any_foldl_upsert_mono (L : List Setting) :
    ∀ (acc : List Setting) (k : String),
      acc.any (fun s => s.key == k) = true →
      (L.foldl upsertSetOnInsert acc).any (fun s => s.key == k) = true := by
  induction L with
  | nil => intro acc k h; exact h
  | cons d t ih =>
    intro acc k h
    exact ih _ k (any_upsertSetOnInsert_mono acc d k h)

theorem any_foldl_upsert_of_mem (L : List Setting) :
    ∀ (acc : List Setting) (d : Setting), d ∈ L →
      (L.foldl upsertSetOnInsert acc).any (fun s => s.key == d.key) = true := by
  induction L with
  | nil => intro acc d h; simp at h
  | cons hd t ih =>
    intro acc d h
    rcases List.mem_cons.mp h with rfl | hmem
    · exact any_foldl_upsert_mono t _ d.key (any_upsertSetOnInsert_self acc d)
    · exact ih _ d hmem

theorem upsertSetOnInsert_of_present (l : List Setting) (st : Setting)
    (h : l.any (fun s => s.key == st.key) = true) :
    upsertSetOnInsert l st = l := by
  rw [upsertSetOnInsert, if_pos h]

theorem foldl_upsert_of_all_present (L : List Setting) :
    ∀ (acc : List Setting),
      (∀ d ∈ L, acc.any (fun s => s.key == d.key) = true) →
      L.foldl upsertSetOnInsert acc = acc := by
  induction L with
  | nil => intro acc _; rfl
  | cons hd t ih =>
    intro acc h
    rw [List.foldl_cons, upsertSetOnInsert_of_present acc hd (h hd (List.mem_cons_self _ _))]
    exact ih acc fun d hd' => h d (List.mem_cons_of_mem _ hd')

theorem mem_upsertSetOnInsert_mono (l : List Setting) (st x : Setting)
    (h : x ∈ l) : x ∈ upsertSetOnInsert l st := by
  rw [upsertSetOnInsert]
  split
  · exact h
  · exact List.mem_append_left _ h

theorem mem_foldl_upsert_mono (L : List Setting) :
    ∀ (acc : List Setting) (x : Setting), x ∈ acc →
      x ∈ L.foldl upsertSetOnInsert acc := by
  induction L with
  | nil => intro acc x h; exact h
  | cons hd t ih =>
    intro acc x h
    exact ih _ x (mem_upsertSetOnInsert_mono acc hd x h)

theorem mem_foldl_upsert_of_absent (L : List Setting) :
    ∀ (acc : List Setting) (d : Setting), d ∈ L →
      List.Pairwise (fun a b : Setting => a.key ≠ b.key) L →
      acc.any (fun s => s.key == d.key) = false →
      d ∈ L.foldl upsertSetOnInsert acc := by
  induction L with
  | nil => intro acc d h _ _; simp at h
  | cons hd t ih =>
    intro acc d hmem hpw habs
    rw [List.pairwise_cons] at hpw
    rcases List.mem_cons.mp hmem with rfl | hmem'
    · have hup : upsertSetOnInsert acc d = acc ++ [d] := by
        rw [upsertSetOnInsert, if_neg (by rw [habs]; exact Bool.false_ne_true)]
      rw [List.foldl_cons, hup]
      exact mem_foldl_upsert_mono t _ d (List.mem_append_right _ (List.mem_singleton.mpr rfl))
    · have hne : hd.key ≠ d.key := hpw.1 d hmem'
      have habs' : (upsertSetOnInsert acc hd).any (fun s => s.key == d.key) = false := by
        rw [upsertSetOnInsert]
        split
        · exact habs
        · rw [List.any_append, habs]
          simp [hne]
      rw [List.foldl_cons]
      exact ih _ d hmem' hpw.2 habs'

theorem defaultSettings_keys_pairwise :
    List.Pairwise (fun a b : Setting => a.key ≠ b.key) defaultSettings := by
  rw [defaultSettings]
  norm_num [List.pairwise_cons]
  decide

/-- C5: initializeDefaults is idempotent and never overwrites: for every
settings-collection state, each baseline default is inserted only when its key
is absent, and for every key already present (including one whose value a
caller changed between calls) the existing record is unchanged by any later
call to initializeDefaults. -/
theorem initializeDefaults_insert_only :
    ∀ (settings : List Setting),
      (∀ (k : String) (st : Setting),
        settings.find? (fun s => s.key == k) = some st →
        (initializeDefaults settings).find? (fun s => s.key == k) = some st) ∧
      (∀ d ∈ defaultSettings,
        settings.any (fun s => s.key == d.key) = false →
        d ∈ initializeDefaults settings) ∧
      initializeDefaults (initializeDefaults settings) = initializeDefaults settings := by
  intro settings
  refine ⟨?_, ?_, ?_⟩
  · intro k st h
    exact find?_foldl_upsert defaultSettings settings k st h
  · intro d hd habs
    exact mem_foldl_upsert_of_absent defaultSettings settings d hd
      defaultSettings_keys_pairwise habs
  · rw [initializeDefaults]
    exact foldl_upsert_of_all_present defaultSettings (initializeDefaults settings)
      fun d hd => any_foldl_upsert_of_mem defaultSettings settings d hd

/-- A settings state holding a posts_per_page record whose value a caller
changed to 25. -/
def changedPostsPerPage : Setting :=
  { key := "posts_per_page", value := .vNum 25, type := "number",
    category := "general", label := "Posts per Page",
    validation := some { required := true },
    access_level := "admin", default_value := some (.vNum 10) }

/-- The first baseline default of initializeDefaults. -/
def siteTitleDefault : Setting :=
  { key := "site_title", value := .vStr "My Website", type := "string",
    category := "general", label := "Site Title",
    description := some "The main title of your website",
    validation := some { required := true, max_length := some 100 },
    access_level := "admin" }

/-- Witness for C5: the changed record survives initializeDefaults, the absent
site_title default gets inserted, and a second call is the identity. -/
theorem initializeDefaults_insert_only_witness :
    ((initializeDefaults [changedPostsPerPage]).find?
        (fun s => s.key == "posts_per_page") = some changedPostsPerPage) ∧
    siteTitleDefault ∈ initializeDefaults [changedPostsPerPage] ∧
    initializeDefaults (initializeDefaults [changedPostsPerPage]) =
      initializeDefaults [changedPostsPerPage] :=
  ⟨(initializeDefaults_insert_only [changedPostsPerPage]).1 "posts_per_page"
      changedPostsPerPage rfl,
   (initializeDefaults_insert_only [changedPostsPerPage]).2.1 siteTitleDefault
      (by rw [defaultSettings]; exact List.mem_cons_self _ _) rfl,
   (initializeDefaults_insert_only [changedPostsPerPage]).2.2⟩


/-! ### C3: setSetting rejection versus validateValue -/

theorem isEmptyValue_iff (value : SettingValue) :
    isEmptyValue value = true ↔ value = .vNull ∨ value = .vStr "" := by
  cases value <;> simp [isEmptyValue]

/-- The claim's reading of the validateValue algorithm: every attached length
bound and pattern is enforced whenever it is present. -/
def validateValueClaim (regexTest : String → String → Bool) (st : Setting)
    (value : SettingValue) : Prop :=
  match st.validation with
  | none => True
  | some v =>
      (v.required = true → ¬(value = .vNull ∨ value = .vStr "")) ∧
      (∀ s, value = .vStr s → st.type = "string" →
        (∀ m, v.min_length = some m → m ≤ s.length) ∧
        (∀ m, v.max_length = some m → s.length ≤ m) ∧
        (∀ p, v.pattern = some p → regexTest p s = true)) ∧
      (∀ opts, v.options = some opts → opts ≠ [] → value ∈ opts)

/-- The amended reading: a length bound of 0 and a pattern of '' are treated
as not given (the JS guards test truthiness, so they are skipped). -/
def validateValueSpec (regexTest : String → String → Bool) (st : Setting)
    (value : SettingValue) : Prop :=
  match st.validation with
  | none => True
  | some v =>
      (v.required = true → ¬(value = .vNull ∨ value = .vStr "")) ∧
      (∀ s, value = .vStr s → st.type = "string" →
        (∀ m, v.min_length = some m → m ≠ 0 → m ≤ s.length) ∧
        (∀ m, v.max_length = some m → m ≠ 0 → s.length ≤ m) ∧
        (∀ p, v.pattern = some p → p ≠ "" → regexTest p s = true)) ∧
      (∀ opts, v.options = some opts → opts ≠ [] → value ∈ opts)

/-- A string setting whose validation carries max_length 0. -/
def maxLenZeroSetting : Setting :=
  { key := "k", value := .vStr "x", type := "string", category := "general",
    label := "K", validation := some { max_length := some 0 } }

/-- Counterexample to C3 as stated: with a max_length of 0 attached, the
claim's validateValue description rejects the one-character string "a", but
setSetting succeeds because the JS truthiness guard skips a 0 bound. -/
theorem setSetting_claim_counterexample :
    (∃ l, setSetting (fun _ _ => true) [maxLenZeroSetting] "k"
        (.vStr "a") none = Except.ok l) ∧
    ¬ validateValueClaim (fun _ _ => true) maxLenZeroSetting (.vStr "a") := by
  constructor
  · exact ⟨_, rfl⟩
  · intro h
    obtain ⟨hreq, hstr, hopts⟩ := h
    have h0 := (hstr "a" rfl rfl).2.1 0 rfl
    exact absurd h0 (by decide)

theorem validateStringFail_false_iff (regexTest : String → String → Bool)
    (st : Setting) (v : SettingValidation) (value : SettingValue) :
    validateStringFail regexTest st v value = false ↔
      (∀ s, value = .vStr s → st.type = "string" →
        (∀ m, v.min_length = some m → m ≠ 0 → m ≤ s.length) ∧
        (∀ m, v.max_length = some m → m ≠ 0 → s.length ≤ m) ∧
        (∀ p, v.pattern = some p → p ≠ "" → regexTest p s = true)) := by
  cases value with
  | vNull => simp [validateStringFail]
  | vNum n => simp [validateStringFail]
  | vBool b => simp [validateStringFail]
  | vObj f => simp [validateStringFail]
  | vStr s0 =>
    by_cases htype : st.type = "string"
    · have htb : (st.type == "string") = true := by simp [htype]
      simp only [validateStringFail, htb, Bool.true_and]
      constructor
      · intro hfail s hs _
        rw [SettingValue.vStr.injEq] at hs
        subst hs
        simp only [Bool.or_eq_false_iff, Bool.and_eq_false_iff] at hfail
        obtain ⟨⟨hmin, hmax⟩, hpat⟩ := hfail
        refine ⟨?_, ?_, ?_⟩
        · intro m hm hm0
          rcases hmin with hmin | hmin
          · rw [hm] at hmin
            simp [jsTruthyNum, hm0] at hmin
          · rw [hm] at hmin
            simp at hmin
            omega
        · intro m hm hm0
          rcases hmax with hmax | hmax
          · rw [hm] at hmax
            simp [jsTruthyNum, hm0] at hmax
          · rw [hm] at hmax
            simp at hmax
            omega
        · intro p hp hp0
          rcases hpat with hpat | hpat
          · rw [hp] at hpat
            simp [jsTruthyStr, hp0] at hpat
          · rw [hp] at hpat
            simpa using hpat
      · intro hcl
        have h := hcl s0 rfl htype
        simp only [Bool.or_eq_false_iff, Bool.and_eq_false_iff]
        refine ⟨⟨?_, ?_⟩, ?_⟩
        · cases hm : v.min_length with
          | none => left; simp [jsTruthyNum, hm]
          | some m =>
            by_cases hm0 : m = 0
            · left; simp [jsTruthyNum, hm, hm0]
            · right
              have hle := h.1 m hm hm0
              simp [hm]
              omega
        · cases hm : v.max_length with
          | none => left; simp [jsTruthyNum, hm]
          | some m =>
            by_cases hm0 : m = 0
            · left; simp [jsTruthyNum, hm, hm0]
            · right
              have hle := h.2.1 m hm hm0
              simp [hm]
              omega
        · cases hp : v.pattern with
          | none => left; simp [jsTruthyStr, hp]
          | some p =>
            by_cases hp0 : p = ""
            · left; simp [jsTruthyStr, hp, hp0]
            · right
              have hre := h.2.2 p hp hp0
              simp [hp, hre]
    · have htb : (st.type == "string") = false := by simp [htype]
      simp only [validateStringFail, htb, Bool.false_and]
      constructor
      · intro _ s hs htype'
        exact absurd htype' htype
      · intro _
        trivial

theorem updateFirst_isSome_of_find? {α : Type} (p : α → Bool) (f : α → α) :
    ∀ (l : List α) (x : α), l.find? p = some x →
      ∃ l', updateFirst p f l = some l' := by
  intro l
  induction l with
  | nil => intro x h; simp at h
  | cons a t ih =>
    intro x h
    rw [updateFirst]
    by_cases hpa : p a = true
    · rw [if_pos hpa]
      exact ⟨_, rfl⟩
    · rw [if_neg hpa]
      have hpa' : p a = false := by simpa using hpa
      rw [List.find?_cons, hpa'] at h
      obtain ⟨t', ht'⟩ := ih x h
      rw [ht']
      exact ⟨a :: t', rfl⟩

theorem validateValue_iff_spec (regexTest : String → String → Bool)
    (st : Setting) (value : SettingValue) :
    validateValue regexTest st value = true ↔
      validateValueSpec regexTest st value := by
  cases hval : st.validation with
  | none => simp [validateValue, validateValueSpec, hval]
  | some v =>
    simp only [validateValue, validateValueSpec, hval]
    by_cases hreq : (v.required && isEmptyValue value) = true
    · rw [if_pos hreq]
      rw [Bool.and_eq_true] at hreq
      constructor
      · intro h
        exact absurd h (by simp)
      · intro hconj
        exact absurd ((isEmptyValue_iff value).mp hreq.2) (hconj.1 hreq.1)
    · rw [if_neg hreq]
      have hclause1 : v.required = true → ¬(value = .vNull ∨ value = .vStr "") := by
        intro hr hempty
        exact hreq (by rw [hr, (isEmptyValue_iff value).mpr hempty]; rfl)
      by_cases hsf : validateStringFail regexTest st v value = true
      · rw [if_pos hsf]
        constructor
        · intro h
          exact absurd h (by simp)
        · intro hconj
          have hf := (validateStringFail_false_iff regexTest st v value).mpr hconj.2.1
          rw [hsf] at hf
          simp at hf
      · rw [if_neg hsf]
        have hsf' : validateStringFail regexTest st v value = false := by
          simpa using hsf
        have hclause2 := (validateStringFail_false_iff regexTest st v value).mp hsf'
        cases hopt : v.options with
        | none =>
          dsimp only
          constructor
          · intro _
            exact ⟨hclause1, hclause2, fun opts heq => by simp at heq⟩
          · intro _
            rfl
        | some opts =>
          dsimp only
          by_cases hfail : (0 < opts.length && !(opts.contains value)) = true
          · rw [if_pos hfail]
            rw [Bool.and_eq_true] at hfail
            constructor
            · intro h
              exact absurd h (by simp)
            · intro hconj
              have hne : opts ≠ [] := by
                intro hnil
                rw [hnil] at hfail
                simp at hfail
              have hmem := hconj.2.2 opts rfl hne
              have hcont : opts.contains value = true := List.elem_iff.mpr hmem
              rw [hcont] at hfail
              simp at hfail
          · rw [if_neg hfail]
            constructor
            · intro _
              refine ⟨hclause1, hclause2, ?_⟩
              intro optsB heq hne
              rw [Option.some.injEq] at heq
              subst heq
              have hlen : 0 < opts.length := List.length_pos.mpr hne
              have hcont : opts.contains value = true := by
                by_contra hc
                apply hfail
                simp only [Bool.and_eq_true, decide_eq_true_eq]
                refine ⟨by simpa using hlen, ?_⟩
                rw [Bool.eq_false_iff.mpr hc]
                rfl
              exact List.elem_iff.mp hcont
            · intro _
              rfl

/-- C3 (amended): for every setting record that exists under key k and every
candidate value v, setSetting(k, v) fails exactly when validateValue(v)
rejects v, where validateValue accepts iff: no validation record is attached;
or v is non-empty whenever required is set, for string-typed settings and
string values v satisfies min_length, max_length, and the regex pattern when
those are given and truthy (a 0 length bound or an empty pattern string is
skipped), and whenever a non-empty options list is present v is contained in
it. -/
theorem setSetting_rejects_iff_validateValue :
    ∀ (regexTest : String → String → Bool) (settings : List Setting) (key : String)
      (value : SettingValue) (userId : Option String) (st : Setting),
      settings.find? (fun s => s.key == key) = some st →
      (((∃ msg, setSetting regexTest settings key value userId = Except.error msg) ↔
          validateValue regexTest st value = false) ∧
       (validateValue regexTest st value = true ↔
          validateValueSpec regexTest st value)) := by
  intro regexTest settings key value userId st hfind
  refine ⟨?_, validateValue_iff_spec regexTest st value⟩
  have hset : setSetting regexTest settings key value userId =
      (if !(validateValue regexTest st value) then
        Except.error "Set setting failed: Invalid value for setting"
      else
        match updateFirst (fun s => s.key == key)
            (fun s => { s with value := value, updated_by := userId }) settings with
        | some settings' => Except.ok settings'
        | none => Except.error "Set setting failed: Setting not found") := by
    rw [setSetting, hfind]
  rw [hset]
  cases hv : validateValue regexTest st value with
  | false => simp
  | true =>
    obtain ⟨l', hl'⟩ := updateFirst_isSome_of_find?
      (fun s => s.key == key) (fun s => { s with value := value, updated_by := userId })
      settings st hfind
    simp [hl']

/-- A string setting requiring a non-empty value (the site_title baseline). -/
def requiredTitleSetting : Setting :=
  { key := "site_title", value := .vStr "My Website", type := "string",
    category := "general", label := "Site Title",
    validation := some { required := true, max_length := some 100 },
    access_level := "admin" }

/-- Witness for C3 (amended) at the concrete site_title setting: the empty
string is rejected and the rejection matches the amended description. -/
theorem setSetting_rejects_iff_validateValue_witness :
    (((∃ msg, setSetting (fun _ _ => true) [requiredTitleSetting] "site_title"
          (.vStr "") none = Except.error msg) ↔
        validateValue (fun _ _ => true) requiredTitleSetting (.vStr "") = false) ∧
     (validateValue (fun _ _ => true) requiredTitleSetting (.vStr "") = true ↔
        validateValueSpec (fun _ _ => true) requiredTitleSetting (.vStr ""))) :=
  setSetting_rejects_iff_validateValue (fun _ _ => true) [requiredTitleSetting]
    "site_title" (.vStr "") none requiredTitleSetting rfl

end CMS
